import Mathlib

/-!
Verification of the insight-generation core of the fintech customer-experience
analytics repository (`src/src/insights/insights_generator.py`).

Python strings are modelled as `List Char` (`Str` below); `None`-able numeric
fields are modelled as `Option ℚ` (ratings and sentiment scores arrive from the
database as `Decimal`/`NULL`, which the code coerces explicitly).  Python
`float` arithmetic on these small rating/score expressions is modelled over ℚ.
-/

abbrev Str := List Char

/-- A normalized review record, mirroring the columns selected by
`load_data_from_database` / the analyzed CSV. -/
structure Review where
  review_text : Str
  rating : Option ℚ
  sentiment_label : Option Str
  sentiment_score : Option ℚ
  bank_name : Str
deriving DecidableEq, Repr

/-- Python's `keyword in text` substring containment test. -/
def containsSub (needle : Str) : Str → Bool
  | [] => needle.isEmpty
  | c :: rest => List.isPrefixOf needle (c :: rest) || containsSub needle rest

/-- Python's `str.lower()` (per-character lowering suffices for the ASCII
keyword tables used by the generator). -/
def lowerStr (s : Str) : Str := s.map Char.toLower

/-- `self.drivers_keywords` from `InsightsGenerator.__init__`. -/
def drivers_keywords : List (Str × List Str) :=
  [ ("fast".toList,
      ["fast".toList, "quick".toList, "speed".toList, "instant".toList,
       "rapid".toList, "swift".toList]),
    ("easy".toList,
      ["easy".toList, "simple".toList, "convenient".toList,
       "user-friendly".toList, "intuitive".toList]),
    ("reliable".toList,
      ["reliable".toList, "stable".toList, "consistent".toList,
       "dependable".toList, "trustworthy".toList]),
    ("secure".toList,
      ["secure".toList, "safe".toList, "protected".toList, "security".toList]),
    ("features".toList,
      ["feature".toList, "function".toList, "tool".toList, "option".toList,
       "capability".toList]),
    ("support".toList,
      ["support".toList, "help".toList, "service".toList, "assistance".toList,
       "customer service".toList]) ]

/-- `self.pain_point_keywords` from `InsightsGenerator.__init__`. -/
def pain_point_keywords : List (Str × List Str) :=
  [ ("crashes".toList,
      ["crash".toList, "freeze".toList, "hang".toList, "error".toList,
       "bug".toList, "glitch".toList]),
    ("slow".toList,
      ["slow".toList, "lag".toList, "delay".toList, "wait".toList,
       "loading".toList, "timeout".toList]),
    ("login".toList,
      ["login".toList, "password".toList, "authentication".toList,
       "access".toList, "sign in".toList]),
    ("transaction".toList,
      ["transaction".toList, "payment".toList, "transfer".toList,
       "failed".toList, "declined".toList]),
    ("network".toList,
      ["network".toList, "connection".toList, "internet".toList,
       "connectivity".toList, "offline".toList]),
    ("ui".toList,
      ["interface".toList, "design".toList, "layout".toList,
       "navigation".toList, "confusing".toList, "complicated".toList]) ]

/-- `float(row.get('rating', 0)) if row.get('rating') is not None else 0.0`
(driver path, line 118). -/
def driverRating (r : Review) : ℚ :=
  match r.rating with
  | some x => x
  | none => 0

/-- `float(row.get('rating', 3)) if row.get('rating') is not None else 3.0`
(pain-point path, line 191). -/
def painRating (r : Review) : ℚ :=
  match r.rating with
  | some x => x
  | none => 3

/-- `float(row.get('sentiment_score', 0.5)) if ... is not None else 0.5`
(lines 119 and 192). -/
def sentScore (r : Review) : ℚ :=
  match r.sentiment_score with
  | some x => x
  | none => 1/2

/-- `weight = (rating / 5.0) * 0.5 + sentiment_score * 0.5` (line 122). -/
def driverWeight (r : Review) : ℚ :=
  driverRating r / 5 * (1/2) + sentScore r * (1/2)

/-- `weight = ((5 - rating) / 5.0) * 0.5 + (1 - sentiment_score) * 0.5`
(line 195). -/
def painWeight (r : Review) : ℚ :=
  (5 - painRating r) / 5 * (1/2) + (1 - sentScore r) * (1/2)

/-- An entry of a driver's/pain point's `examples` list (lines 139-144). -/
structure ReviewExample where
  text : Str
  rating : ℚ
  sentiment : Str
deriving DecidableEq, Repr

/-- The stored example: `str(row.get('review_text', ''))[:100]` together with
the coerced rating and `row.get('sentiment_label', 'unknown')`. -/
def exampleOf (ratingVal : ℚ) (r : Review) : ReviewExample :=
  { text := r.review_text.take 100
    rating := ratingVal
    sentiment := r.sentiment_label.getD ("unknown".toList) }

/-- Per-category accumulator (`driver_scores[driver_type]` /
`pain_point_scores[pain_type]`). -/
structure CatData where
  score : ℚ
  count : ℕ
  examples : List ReviewExample
deriving DecidableEq, Repr

/-- One keyword hit: `score += weight; count += 1` and append the example when
fewer than 3 are stored (lines 134-144). -/
def bump (d : CatData) (w : ℚ) (ex : ReviewExample) : CatData :=
  { score := d.score + w
    count := d.count + 1
    examples := if d.examples.length < 3 then d.examples ++ [ex] else d.examples }

/-- Python-dict update: create the entry at the end of the insertion order on
first hit, then apply `bump`; an existing entry keeps its position. -/
def hit (m : List (Str × CatData)) (c : Str) (w : ℚ) (ex : ReviewExample) :
    List (Str × CatData) :=
  match m with
  | [] => [(c, bump ⟨0, 0, []⟩ w ex)]
  | (k, d) :: rest =>
    if k = c then (k, bump d w ex) :: rest else (k, d) :: hit rest c w ex

/-- Inner keyword loop (`for keyword in keywords: if keyword in text: ...`).
There is no `break`: every matching keyword produces its own hit. -/
def scanKeywords (text : Str) (c : Str) (kws : List Str) (w : ℚ)
    (ex : ReviewExample) (m : List (Str × CatData)) : List (Str × CatData) :=
  kws.foldl (fun m kw => if containsSub kw text then hit m c w ex else m) m

/-- Category loop for a single review row. -/
def scanReview (tax : List (Str × List Str)) (wf : Review → ℚ)
    (exf : Review → ReviewExample) (m : List (Str × CatData)) (r : Review) :
    List (Str × CatData) :=
  tax.foldl (fun m ck =>
    scanKeywords (lowerStr r.review_text) ck.1 ck.2 (wf r) (exf r) m) m

/-- Row loop (`for _, row in positive_df.iterrows()`), starting from the empty
dict. -/
def scanAll (tax : List (Str × List Str)) (wf : Review → ℚ)
    (exf : Review → ReviewExample) (rows : List Review) :
    List (Str × CatData) :=
  rows.foldl (scanReview tax wf exf) []

/-- `driver_scores` after the scan of the positive subset (lines 116-144). -/
def driverScores (rows : List Review) : List (Str × CatData) :=
  scanAll drivers_keywords driverWeight (fun r => exampleOf (driverRating r) r) rows

/-- `pain_point_scores` after the scan of the negative subset (lines 189-217). -/
def painScores (rows : List Review) : List (Str × CatData) :=
  scanAll pain_point_keywords painWeight (fun r => exampleOf (painRating r) r) rows

/-- Assoc-list lookup mirroring Python dict access. -/
def findCat : List (Str × CatData) → Str → Option CatData
  | [], _ => none
  | (k, d) :: rest, c => if k = c then some d else findCat rest c

/-- The mention count recorded for a category (0 when the category was never
hit). -/
def countOf (m : List (Str × CatData)) (c : Str) : ℕ :=
  match findCat m c with
  | some d => d.count
  | none => 0

/-- One entry of the list returned by `identify_drivers` (lines 149-156). -/
structure Driver where
  type : Str
  description : Str
  strength : ℚ
  mentions : ℕ
  evidence_count : ℕ
  examples : List ReviewExample
deriving DecidableEq, Repr

/-- One entry of the list returned by `identify_pain_points` (lines 222-229). -/
structure PainPoint where
  type : Str
  description : Str
  severity : ℚ
  mentions : ℕ
  evidence_count : ℕ
  examples : List ReviewExample
deriving DecidableEq, Repr

/-- Generic assoc-list lookup for the static description/template tables. -/
def findAssoc {β : Type} : List (Str × β) → Str → Option β
  | [], _ => none
  | (k, v) :: rest, c => if k = c then some v else findAssoc rest c

/-- `_get_driver_description` (lines 306-316): table lookup with the type
itself as fallback. -/
def get_driver_description (t : Str) : Str :=
  (findAssoc
    [ ("fast".toList, "Fast navigation and quick response times".toList),
      ("easy".toList, "Easy to use and user-friendly interface".toList),
      ("reliable".toList, "Reliable and stable app performance".toList),
      ("secure".toList, "Strong security features".toList),
      ("features".toList, "Rich feature set and functionality".toList),
      ("support".toList, "Good customer support and service".toList) ] t).getD t

/-- `_get_pain_point_description` (lines 318-328). -/
def get_pain_point_description (t : Str) : Str :=
  (findAssoc
    [ ("crashes".toList, "App crashes and technical errors".toList),
      ("slow".toList, "Slow performance and loading times".toList),
      ("login".toList, "Login and authentication issues".toList),
      ("transaction".toList, "Transaction failures and payment problems".toList),
      ("network".toList, "Network connectivity issues".toList),
      ("ui".toList, "User interface and navigation problems".toList) ] t).getD t

/-- Descending-by-key ordering used by `list.sort(key=..., reverse=True)`. -/
def descBy {α : Type} (key : α → ℚ) : α → α → Prop :=
  fun a b => key b ≤ key a

instance {α : Type} (key : α → ℚ) : DecidableRel (descBy key) :=
  fun a b => inferInstanceAs (Decidable (key b ≤ key a))

instance {α : Type} (key : α → ℚ) : IsTotal α (descBy key) :=
  ⟨fun a b => (le_total (key b) (key a)).imp id id⟩

instance {α : Type} (key : α → ℚ) : IsTrans α (descBy key) :=
  ⟨fun _ _ _ h1 h2 => le_trans h2 h1⟩

/-- Stable descending sort by a rational key; CPython's `list.sort` is a
stable sort, and with `reverse=True` equal keys still keep their original
relative order, which is exactly insertion sort under `descBy`. -/
def sortDesc {α : Type} (key : α → ℚ) (l : List α) : List α :=
  List.insertionSort (descBy key) l

/-- `positive_df = df[(df['rating'] >= 4) | (df['sentiment_label'] == 'positive')].copy()`
(lines 104-107); a `NULL` rating compares as false. -/
def positiveSubset (df : List Review) : List Review :=
  df.filter (fun r =>
    (match r.rating with
      | some x => decide (4 ≤ x)
      | none => false)
    || decide (r.sentiment_label = some ("positive".toList)))

/-- `negative_df = df[(df['rating'] <= 2) | (df['sentiment_label'] == 'negative')].copy()`
(lines 177-180). -/
def negativeSubset (df : List Review) : List Review :=
  df.filter (fun r =>
    (match r.rating with
      | some x => decide (x ≤ 2)
      | none => false)
    || decide (r.sentiment_label = some ("negative".toList)))

/-- Conversion of the scan accumulator into the driver list (lines 146-156):
threshold `count >= 5`, `strength = min(score / count, 1.0)`. -/
def driverCandidates (positive : List Review) : List Driver :=
  (driverScores positive).filterMap (fun cd =>
    if 5 ≤ cd.2.count then
      some { type := cd.1
             description := get_driver_description cd.1
             strength := min (cd.2.score / (cd.2.count : ℚ)) 1
             mentions := cd.2.count
             evidence_count := positive.length
             examples := cd.2.examples }
    else none)

/-- Conversion of the scan accumulator into the pain-point list
(lines 219-229). -/
def painCandidates (negative : List Review) : List PainPoint :=
  (painScores negative).filterMap (fun cd =>
    if 5 ≤ cd.2.count then
      some { type := cd.1
             description := get_pain_point_description cd.1
             severity := min (cd.2.score / (cd.2.count : ℚ)) 1
             mentions := cd.2.count
             evidence_count := negative.length
             examples := cd.2.examples }
    else none)

/-- `InsightsGenerator.identify_drivers` (lines 90-161).  The `bank_name`
argument of the source is only used for logging and is omitted. -/
def identify_drivers (df : List Review) : List Driver :=
  let positive_df := positiveSubset df
  if positive_df.length = 0 then []
  else (sortDesc (fun d => d.strength) (driverCandidates positive_df)).take 5

/-- `InsightsGenerator.identify_pain_points` (lines 163-234). -/
def identify_pain_points (df : List Review) : List PainPoint :=
  let negative_df := negativeSubset df
  if negative_df.length = 0 then []
  else (sortDesc (fun p => p.severity) (painCandidates negative_df)).take 5

/-- Python's `int()` truncation toward zero, applied to a rational. -/
def ratInt (q : ℚ) : ℤ := Int.tdiv q.num q.den

/-- Order-of-first-occurrence deduplication, matching
`pandas.Series.unique()`. -/
def uniqueFirst {α : Type} [DecidableEq α] (l : List α) : List α :=
  l.foldl (fun acc x => if x ∈ acc then acc else acc ++ [x]) []

/-- `Series.value_counts().to_dict()`: each distinct value with its number of
occurrences.  (pandas orders the entries by decreasing count; none of the
verified properties depends on the entry order, so first-occurrence order of
the distinct values is used here.) -/
def valueCounts (xs : List ℚ) : List (ℚ × ℕ) :=
  (uniqueFirst xs).map (fun v => (v, xs.count v))

/-- Python-dict insertion for the `{int(k): int(v) for ...}` comprehension:
an existing key keeps its position and gets the new value, a new key is
appended. -/
def dictInsertZ (m : List (ℤ × ℕ)) (k : ℤ) (v : ℕ) : List (ℤ × ℕ) :=
  match m with
  | [] => [(k, v)]
  | (k', v') :: rest =>
    if k' = k then (k', v) :: rest else (k', v') :: dictInsertZ rest k v

/-- Build a Python dict from a key/value sequence. -/
def dictifyZ (l : List (ℤ × ℕ)) : List (ℤ × ℕ) :=
  l.foldl (fun m p => dictInsertZ m p.1 p.2) []

/-- One bank's row of the `compare_banks` output (lines 260-267). -/
structure BankRow where
  total_reviews : ℕ
  average_rating : ℚ
  positive_sentiment_pct : ℚ
  negative_sentiment_pct : ℚ
  neutral_sentiment_pct : ℚ
  rating_distribution : List (ℤ × ℕ)
deriving DecidableEq, Repr

/-- The row computed for one bank's sub-frame `bank_df` (lines 251-267):
ratings are coerced with `float(x) if x is not None else 0.0`, the mean and
the histogram are taken over the coerced column, sentiment percentages are
`count / total * 100` guarded by `total > 0`. -/
def bankRowFor (g : List Review) : BankRow :=
  let ratings := g.map (fun r => r.rating.getD 0)
  let total := g.length
  { total_reviews := total
    average_rating := ratings.sum / (ratings.length : ℚ)
    positive_sentiment_pct :=
      if 0 < total then
        ((g.countP (fun r => decide (r.sentiment_label = some ("positive".toList)))) : ℚ)
          / (total : ℚ) * 100
      else 0
    negative_sentiment_pct :=
      if 0 < total then
        ((g.countP (fun r => decide (r.sentiment_label = some ("negative".toList)))) : ℚ)
          / (total : ℚ) * 100
      else 0
    neutral_sentiment_pct :=
      if 0 < total then
        ((g.countP (fun r => decide (r.sentiment_label = some ("neutral".toList)))) : ℚ)
          / (total : ℚ) * 100
      else 0
    rating_distribution :=
      dictifyZ ((valueCounts ratings).map (fun p => (ratInt p.1, p.2))) }

/-- `InsightsGenerator.compare_banks` (lines 236-269): one row per bank, banks
iterated in order of first occurrence (`df['bank_name'].unique()`). -/
def compare_banks (df : List Review) : List (Str × BankRow) :=
  (uniqueFirst (df.map (fun r => r.bank_name))).map
    (fun b => (b, bankRowFor (df.filter (fun r => decide (r.bank_name = b)))))

/-- A recommendation dict (lines 330-426).  Evidence-tied recommendations
carry an `evidence` string and the pain point's `severity`; opportunity
recommendations instead carry `opportunity = True` (modelled as a `Bool`
that is `false` when the Python dict lacks the key). -/
structure Recommendation where
  title : Str
  description : Str
  priority : Str
  impact : Str
  evidence : Option Str
  severity : Option ℚ
  opportunity : Bool
deriving DecidableEq, Repr

/-- A static title/description/priority/impact template. -/
structure RecTemplate where
  title : Str
  description : Str
  priority : Str
  impact : Str
deriving DecidableEq, Repr

/-- `recommendations_map` of `_get_recommendation_for_pain_point`
(lines 332-369).  Priorities are fixed per category. -/
def recommendations_map : List (Str × RecTemplate) :=
  [ ("crashes".toList,
      ⟨"Improve App Stability".toList,
       "Address app crashes and bugs through comprehensive testing and error handling".toList,
       "High".toList,
       "Reduces user frustration and negative reviews".toList⟩),
    ("slow".toList,
      ⟨"Optimize Performance".toList,
       "Improve app speed and reduce loading times through code optimization and caching".toList,
       "High".toList,
       "Enhances user experience and satisfaction".toList⟩),
    ("login".toList,
      ⟨"Enhance Authentication System".toList,
       "Simplify login process and add biometric authentication options".toList,
       "Medium".toList,
       "Reduces login-related complaints".toList⟩),
    ("transaction".toList,
      ⟨"Improve Transaction Reliability".toList,
       "Enhance payment processing and add transaction status notifications".toList,
       "High".toList,
       "Critical for user trust and app functionality".toList⟩),
    ("network".toList,
      ⟨"Add Offline Capabilities".toList,
       "Implement offline mode and better error handling for network issues".toList,
       "Medium".toList,
       "Improves app usability in poor network conditions".toList⟩),
    ("ui".toList,
      ⟨"Redesign User Interface".toList,
       "Simplify navigation and improve visual design based on user feedback".toList,
       "Medium".toList,
       "Enhances overall user experience".toList⟩) ]

/-- `opportunities_map` of `_get_recommendation_for_opportunity`
(lines 382-419). -/
def opportunities_map : List (Str × RecTemplate) :=
  [ ("fast".toList,
      ⟨"Add Performance Optimization Features".toList,
       "Implement caching and optimize app performance to improve speed".toList,
       "Medium".toList,
       "Could become a key differentiator".toList⟩),
    ("easy".toList,
      ⟨"Improve User Onboarding".toList,
       "Create tutorials and simplify initial setup process".toList,
       "Medium".toList,
       "Reduces learning curve for new users".toList⟩),
    ("reliable".toList,
      ⟨"Enhance App Reliability".toList,
       "Invest in testing and monitoring to improve app stability".toList,
       "High".toList,
       "Builds user trust and reduces complaints".toList⟩),
    ("secure".toList,
      ⟨"Strengthen Security Features".toList,
       "Add two-factor authentication and security notifications".toList,
       "High".toList,
       "Critical for financial app user trust".toList⟩),
    ("features".toList,
      ⟨"Add Budgeting Tools".toList,
       "Implement expense tracking and budgeting features".toList,
       "Low".toList,
       "Differentiates from competitors".toList⟩),
    ("support".toList,
      ⟨"Enhance Customer Support".toList,
       "Add in-app chat support and improve response times".toList,
       "Medium".toList,
       "Improves customer satisfaction".toList⟩) ]

/-- `_get_recommendation_for_pain_point` (lines 330-378): template lookup by
category, then `rec['evidence'] = f"{mentions} mentions in negative reviews"`
and `rec['severity'] = pain_point['severity']`. -/
def get_recommendation_for_pain_point (p : PainPoint) : Option Recommendation :=
  (findAssoc recommendations_map p.type).map (fun t =>
    { title := t.title
      description := t.description
      priority := t.priority
      impact := t.impact
      evidence := some ((Nat.repr p.mentions).toList
                        ++ " mentions in negative reviews".toList)
      severity := some p.severity
      opportunity := false })

/-- `_get_recommendation_for_opportunity` (lines 380-426): template lookup by
category, then `rec['opportunity'] = True`. -/
def get_recommendation_for_opportunity (t : Str) : Option Recommendation :=
  (findAssoc opportunities_map t).map (fun tm =>
    { title := tm.title
      description := tm.description
      priority := tm.priority
      impact := tm.impact
      evidence := none
      severity := none
      opportunity := true })

/-- The category-name universe `set(self.drivers_keywords.keys())`. -/
def driverTypeNames : List Str := drivers_keywords.map (fun p => p.1)

/-- `InsightsGenerator.generate_recommendations` (lines 271-304).

The missing-driver "opportunities" are produced by
`list(all_driver_types - existing_driver_types)[:2]`, where the operand is a
Python `set` of strings.  The iteration order of such a set is determined by
the interpreter's string hash values, which are randomized per process
(`PYTHONHASHSEED`); it is not a function of the input.  That order is
therefore made explicit here as `setOrder`, an enumeration of the category
name universe for the process at hand: the missing set is still computed from
`drivers`, and `setOrder` contributes only the order in which its elements
are listed.  A run of the Python code corresponds to some permutation
`setOrder` of the six category names. -/
def generate_recommendations (drivers : List Driver) (pain_points : List PainPoint)
    (setOrder : List Str) : List Recommendation :=
  let recs := (pain_points.take 3).filterMap get_recommendation_for_pain_point
  let existing := drivers.map (fun d => d.type)
  let missing := setOrder.filter
    (fun t => decide (t ∈ driverTypeNames) && !decide (t ∈ existing))
  recs ++ (missing.take 2).filterMap get_recommendation_for_opportunity

/-- The taxonomy-order enumeration of the category names, one concrete
possible `setOrder`. -/
def canonicalOrder : List Str := driverTypeNames

/-- State-passing rendering of `identify_drivers`: the eligible subset is
materialized by `df[...].copy()` into a fresh frame, every later read targets
that copy, and no statement assigns into the caller's `df`, which is handed
back unchanged. -/
def identify_drivers_run (df : List Review) : List Driver × List Review :=
  let positive_df := positiveSubset df
  (if positive_df.length = 0 then []
   else (sortDesc (fun d => d.strength) (driverCandidates positive_df)).take 5,
   df)

/-- State-passing rendering of `identify_pain_points` (same copy
discipline). -/
def identify_pain_points_run (df : List Review) : List PainPoint × List Review :=
  let negative_df := negativeSubset df
  (if negative_df.length = 0 then []
   else (sortDesc (fun p => p.severity) (painCandidates negative_df)).take 5,
   df)

/-- State-passing rendering of `compare_banks`: the per-bank coercion
`bank_df['rating'] = bank_df['rating'].apply(...)` mutates `bank_df`, which is
a `.copy()` of a slice; the caller's `df` is handed back unchanged. -/
def compare_banks_run (df : List Review) : List (Str × BankRow) × List Review :=
  ((uniqueFirst (df.map (fun r => r.bank_name))).map
    (fun b => (b, bankRowFor (df.filter (fun r => decide (r.bank_name = b))))),
   df)

/-- Every recommendation produced from the opportunity table carries
`opportunity = True`. -/
theorem opportunity_of_mem_opp {r : Recommendation} {l : List Str}
    (h : r ∈ l.filterMap get_recommendation_for_opportunity) :
    r.opportunity = true := by
  rcases List.mem_filterMap.mp h with ⟨t, _, ht⟩
  unfold get_recommendation_for_opportunity at ht
  rcases Option.map_eq_some'.mp ht with ⟨tm, _, rfl⟩
  rfl

/-- Every recommendation produced from a pain point lacks the `opportunity`
key (modelled as `opportunity = false`). -/
theorem opportunity_of_mem_pain {r : Recommendation} {l : List PainPoint}
    (h : r ∈ l.filterMap get_recommendation_for_pain_point) :
    r.opportunity = false := by
  rcases List.mem_filterMap.mp h with ⟨p, _, hp⟩
  unfold get_recommendation_for_pain_point at hp
  rcases Option.map_eq_some'.mp hp with ⟨tm, _, rfl⟩
  rfl

/-- A review with no rating, used to exhibit the driver-path rating default. -/
def reviewNoRating : Review :=
  { review_text := "fast".toList
    rating := none
    sentiment_label := some "positive".toList
    sentiment_score := some 1
    bank_name := "A".toList }

/-- Claim C4, counterexample: for a review with an absent rating the driver
computation uses the fallback 0, not the neutral 3/5 asserted by the claim:
the driver weight comes out as 1/2 where the claimed fallback would give
(3/5)·0.5 + 1·0.5 = 4/5.  (The pain-point path does use the fallback 3.) -/
theorem c4_weight_counterexample :
    driverRating reviewNoRating = 0
    ∧ painRating reviewNoRating = 3
    ∧ driverWeight reviewNoRating = 1/2
    ∧ (3:ℚ)/5 * (1/2) + 1 * (1/2) = 4/5
    ∧ (1:ℚ)/2 ≠ 4/5 := by
  refine ⟨rfl, rfl, ?_, by norm_num, by norm_num⟩
  norm_num [driverWeight, driverRating, sentScore, reviewNoRating]

/-- Claim C4 (amended): the per-review mention weight is
(rating/5)·0.5 + sentiment_confidence·0.5 for drivers and
(1 − rating/5)·0.5 + (1 − sentiment_confidence)·0.5 for pain points, with
sentiment confidence defaulting to 0.5 when absent; an absent rating falls
back to 3 only in the pain-point computation, while the driver computation
falls back to 0. -/
theorem c4_weight_formulas (r : Review) :
    driverWeight r = (r.rating.getD 0) / 5 * (1/2) + (r.sentiment_score.getD (1/2)) * (1/2)
    ∧ painWeight r = (5 - r.rating.getD 3) / 5 * (1/2) + (1 - r.sentiment_score.getD (1/2)) * (1/2) := by
  constructor <;>
    cases hr : r.rating <;> cases hs : r.sentiment_score <;>
      simp [driverWeight, painWeight, driverRating, painRating, sentScore, hr, hs]

/-- Claim C9: an entity with an empty eligible positive (resp. negative)
subset yields an empty driver (resp. pain-point) list — a value, not an
error. -/
theorem c9_empty_subsets (df : List Review) :
    (positiveSubset df = [] → identify_drivers df = [])
    ∧ (negativeSubset df = [] → identify_pain_points df = []) := by
  constructor <;> intro h <;>
    simp [identify_drivers, identify_pain_points, h]

/-- A review eligible for neither subset (rating 3, neutral sentiment). -/
def reviewNeutral : Review :=
  { review_text := "ok".toList
    rating := some 3
    sentiment_label := some "neutral".toList
    sentiment_score := some 1
    bank_name := "A".toList }

/-- Witness for C9 at a concrete one-review frame eligible for neither
subset. -/
theorem c9_empty_subsets_witness :
    (positiveSubset [reviewNeutral] = [] ∧ identify_drivers [reviewNeutral] = [])
    ∧ (negativeSubset [reviewNeutral] = [] ∧ identify_pain_points [reviewNeutral] = []) :=
  ⟨⟨by decide, (c9_empty_subsets [reviewNeutral]).1 (by decide)⟩,
   ⟨by decide, (c9_empty_subsets [reviewNeutral]).2 (by decide)⟩⟩

/-- Claim C10: the three operations leave the caller's frame unchanged — the
eligible-subset slices and the rating coercion act on `.copy()`s, so the
state-passing renderings return the input verbatim together with the same
result as the pure functions. -/
theorem c10_frame (df : List Review) :
    identify_drivers_run df = (identify_drivers df, df)
    ∧ identify_pain_points_run df = (identify_pain_points df, df)
    ∧ compare_banks_run df = (compare_banks df, df) :=
  ⟨rfl, rfl, rfl⟩

/-- Claim C6, counterexample: two process runs that enumerate the six-element
category-name set in different orders (both legitimate enumerations of the
same set, as witnessed by the permutation) produce different recommendation
lists for the same input, so the output is not a function of the input
alone. -/
theorem c6_order_counterexample :
    (canonicalOrder.reverse).Perm canonicalOrder
    ∧ generate_recommendations [] [] canonicalOrder
        ≠ generate_recommendations [] [] canonicalOrder.reverse :=
  ⟨List.reverse_perm canonicalOrder, by decide⟩

/-- Claim C6 (amended): for a fixed set-enumeration order the pipeline is a
deterministic function of its input, and the evidence-tied portion of the
recommendation list (the prefix produced from the top-3 pain points) does not
depend on that order at all; only the up-to-2 trailing opportunity
recommendations (flagged `opportunity = True`) are ordered by the
process-dependent set iteration. -/
theorem c6_deterministic_modulo_set_order (d : List Driver) (p : List PainPoint)
    (σ : List Str) :
    (generate_recommendations d p σ).take
        ((p.take 3).filterMap get_recommendation_for_pain_point).length
      = (p.take 3).filterMap get_recommendation_for_pain_point
    ∧ ∀ r ∈ (generate_recommendations d p σ).drop
        ((p.take 3).filterMap get_recommendation_for_pain_point).length,
        r.opportunity = true := by
  constructor
  · exact List.take_left _ _
  · intro r hr
    have hsplit : generate_recommendations d p σ
        = (p.take 3).filterMap get_recommendation_for_pain_point
          ++ ((σ.filter (fun t => decide (t ∈ driverTypeNames)
                && !decide (t ∈ d.map (fun x => x.type)))).take 2).filterMap
              get_recommendation_for_opportunity := rfl
    rw [hsplit, List.drop_left] at hr
    exact opportunity_of_mem_opp hr

/-- A ranked pain point of category `login` with severity 0.4 and 60
mentions. -/
def loginPainPoint : PainPoint :=
  { type := "login".toList
    description := "Login and authentication issues".toList
    severity := 2/5
    mentions := 60
    evidence_count := 80
    examples := [] }

/-- Claim C1, counterexample: the synthesizer does not evaluate the claimed
priority rule.  For a top pain point with severity 0.4 > 0.3 and
mentions 60 > 50 the rule demands priority High, but the code's first
recommendation has the static template priority of the `login` category,
Medium. -/
theorem c1_priority_counterexample :
    ((generate_recommendations [] [loginPainPoint] canonicalOrder).head?).map
        (fun r => r.priority) = some ("Medium".toList)
    ∧ (3:ℚ)/10 < loginPainPoint.severity
    ∧ 50 < loginPainPoint.mentions
    ∧ some ("Medium".toList) ≠ some ("High".toList) :=
  ⟨by decide, by norm_num [loginPainPoint], by decide, by decide⟩

/-- Claim C1 (amended): the synthesizer takes the top 3 pain points and gives
each resulting recommendation the priority stored in the static
category-template table (`High` for crashes/slow/transaction, `Medium` for
login/network/ui), independent of the pain point's severity and mention
count. -/
theorem c1_priority_static (p q : PainPoint) (h : p.type = q.type) :
    (get_recommendation_for_pain_point p).map (fun r => r.priority)
      = (findAssoc recommendations_map p.type).map (fun t => t.priority)
    ∧ (get_recommendation_for_pain_point p).map (fun r => r.priority)
      = (get_recommendation_for_pain_point q).map (fun r => r.priority) := by
  have tbl : ∀ x : PainPoint,
      (get_recommendation_for_pain_point x).map (fun r => r.priority)
        = (findAssoc recommendations_map x.type).map (fun t => t.priority) := by
    intro x
    unfold get_recommendation_for_pain_point
    cases findAssoc recommendations_map x.type <;> rfl
  exact ⟨tbl p, by rw [tbl p, tbl q, h]⟩

/-- The same pain point as `loginPainPoint` but with a tiny severity and few
mentions. -/
def loginPainPointSmall : PainPoint :=
  { type := "login".toList
    description := "Login and authentication issues".toList
    severity := 1/10
    mentions := 6
    evidence_count := 80
    examples := [] }

/-- Witness for C1 (amended) at two concrete same-category pain points with
very different severity/mentions. -/
theorem c1_priority_static_witness :
    loginPainPoint.type = loginPainPointSmall.type
    ∧ ((get_recommendation_for_pain_point loginPainPoint).map (fun r => r.priority)
        = (findAssoc recommendations_map loginPainPoint.type).map (fun t => t.priority)
      ∧ (get_recommendation_for_pain_point loginPainPoint).map (fun r => r.priority)
        = (get_recommendation_for_pain_point loginPainPointSmall).map (fun r => r.priority)) :=
  ⟨by decide, c1_priority_static loginPainPoint loginPainPointSmall (by decide)⟩

/-- A single pain point of category `crashes`. -/
def crashesPainPoint : PainPoint :=
  { type := "crashes".toList
    description := "App crashes and technical errors".toList
    severity := 1
    mentions := 10
    evidence_count := 12
    examples := [] }

/-- Claim C3, counterexample: for an entity with exactly 1 pain point the
synthesizer appends no generic recommendation — the evidence-tied total
(recommendations without the `opportunity` flag) stays 1, not the claimed
2. -/
theorem c3_generic_counterexample :
    (generate_recommendations [] [crashesPainPoint] canonicalOrder).countP
        (fun r => !r.opportunity) = 1
    ∧ (1:ℕ) ≠ 2 :=
  ⟨by decide, by decide⟩

/-- Claim C3 (amended): no generic "general" recommendation exists in the
code.  With fewer than 2 pain points the evidence-tied total stays below 2:
each pain point yields at most one evidence-tied recommendation and the
appended opportunity recommendations are all flagged `opportunity = True`. -/
theorem c3_no_generic_pad (d : List Driver) (pps : List PainPoint) (σ : List Str)
    (h : pps.length < 2) :
    (generate_recommendations d pps σ).countP (fun r => !r.opportunity) < 2 := by
  have hsplit : generate_recommendations d pps σ
      = (pps.take 3).filterMap get_recommendation_for_pain_point
        ++ ((σ.filter (fun t => decide (t ∈ driverTypeNames)
              && !decide (t ∈ d.map (fun x => x.type)))).take 2).filterMap
            get_recommendation_for_opportunity := rfl
  rw [hsplit, List.countP_append]
  have hopp : (((σ.filter (fun t => decide (t ∈ driverTypeNames)
        && !decide (t ∈ d.map (fun x => x.type)))).take 2).filterMap
          get_recommendation_for_opportunity).countP (fun r => !r.opportunity) = 0 := by
    rw [List.countP_eq_zero]
    intro r hr
    simp [opportunity_of_mem_opp hr]
  rw [hopp, Nat.add_zero]
  calc ((pps.take 3).filterMap get_recommendation_for_pain_point).countP
          (fun r => !r.opportunity)
      ≤ ((pps.take 3).filterMap get_recommendation_for_pain_point).length :=
        List.countP_le_length _
    _ ≤ (pps.take 3).length := List.length_filterMap_le _ _
    _ ≤ pps.length := by simp [List.length_take_le]
    _ < 2 := h

/-- Witness for C3 (amended) at a concrete single-pain-point input. -/
theorem c3_no_generic_pad_witness :
    ([crashesPainPoint] : List PainPoint).length < 2
    ∧ (generate_recommendations [] [crashesPainPoint] canonicalOrder).countP
        (fun r => !r.opportunity) < 2 :=
  ⟨by decide, c3_no_generic_pad [] [crashesPainPoint] canonicalOrder (by decide)⟩

theorem countOf_nil (c : Str) : countOf [] c = 0 := rfl

theorem countOf_cons (k : Str) (d : CatData) (rest : List (Str × CatData))
    (c : Str) :
    countOf ((k, d) :: rest) c = if k = c then d.count else countOf rest c := by
  by_cases h : k = c <;> simp [countOf, findCat, h]

theorem countOf_hit (m : List (Str × CatData)) (c' c : Str) (w : ℚ)
    (ex : ReviewExample) :
    countOf (hit m c' w ex) c = countOf m c + (if c' = c then 1 else 0) := by
  induction m with
  | nil =>
    by_cases h : c' = c <;> simp [hit, countOf_cons, countOf_nil, bump, h]
  | cons kd rest ih =>
    obtain ⟨k, d⟩ := kd
    by_cases hk : k = c'
    · subst hk
      by_cases h : k = c <;> simp [hit, countOf_cons, bump, h]
    · by_cases h : k = c
      · subst h
        have hc : ¬ c' = k := fun hh => hk hh.symm
        simp [hit, hk, countOf_cons, hc]
      · simp [hit, hk, countOf_cons, h, ih]

theorem countOf_scanKeywords (text c' c : Str) (kws : List Str) (w : ℚ)
    (ex : ReviewExample) (m : List (Str × CatData)) :
    countOf (scanKeywords text c' kws w ex m) c
      = countOf m c
        + (if c' = c then kws.countP (fun kw => containsSub kw text) else 0) := by
  induction kws generalizing m with
  | nil => simp [scanKeywords]
  | cons kw kws ih =>
    have step : scanKeywords text c' (kw :: kws) w ex m
        = scanKeywords text c' kws w ex
            (if containsSub kw text then hit m c' w ex else m) := rfl
    rw [step, ih]
    by_cases hm : containsSub kw text = true
    · by_cases h : c' = c <;>
        simp [hm, countOf_hit, h, List.countP_cons, Nat.add_comm,
          Nat.add_assoc, Nat.add_left_comm]
    · have hm' : containsSub kw text = false := by
        cases hcs : containsSub kw text
        · rfl
        · exact absurd hcs hm
      by_cases h : c' = c <;> simp [hm', List.countP_cons, h]

theorem countOf_scanCats_not_mem (tax : List (Str × List Str)) (text c : Str)
    (w : ℚ) (ex : ReviewExample) (m : List (Str × CatData))
    (h : c ∉ tax.map (fun p => p.1)) :
    countOf (tax.foldl (fun m ck => scanKeywords text ck.1 ck.2 w ex m) m) c
      = countOf m c := by
  induction tax generalizing m with
  | nil => rfl
  | cons ck rest ih =>
    have hne : ¬ ck.1 = c := by
      intro hh
      exact h (by simp [hh])
    have hrest : c ∉ rest.map (fun p => p.1) := by
      intro hh
      exact h (by simp [hh])
    have step : (ck :: rest).foldl (fun m ck => scanKeywords text ck.1 ck.2 w ex m) m
        = rest.foldl (fun m ck => scanKeywords text ck.1 ck.2 w ex m)
            (scanKeywords text ck.1 ck.2 w ex m) := rfl
    rw [step, ih _ hrest, countOf_scanKeywords]
    simp [hne]

theorem countOf_scanReview (tax : List (Str × List Str)) (wf : Review → ℚ)
    (exf : Review → ReviewExample) (m : List (Str × CatData)) (r : Review)
    (c : Str) (kws : List Str)
    (hnd : (tax.map (fun p => p.1)).Nodup) (hmem : (c, kws) ∈ tax) :
    countOf (scanReview tax wf exf m r) c
      = countOf m c
        + kws.countP (fun kw => containsSub kw (lowerStr r.review_text)) := by
  induction tax generalizing m with
  | nil => cases hmem
  | cons ck rest ih =>
    have step : scanReview (ck :: rest) wf exf m r
        = rest.foldl (fun m ck =>
            scanKeywords (lowerStr r.review_text) ck.1 ck.2 (wf r) (exf r) m)
            (scanKeywords (lowerStr r.review_text) ck.1 ck.2 (wf r) (exf r) m) := rfl
    rcases List.mem_cons.mp hmem with hhead | htail
    · have hck : ck = (c, kws) := hhead.symm
      subst hck
      have hrest : c ∉ rest.map (fun p => p.1) := by
        have := List.nodup_cons.mp hnd
        simpa using this.1
      rw [step, countOf_scanCats_not_mem _ _ _ _ _ _ hrest, countOf_scanKeywords]
      simp
    · have hne : ¬ ck.1 = c := by
        intro hh
        have hc_in : c ∈ rest.map (fun p => p.1) :=
          List.mem_map.mpr ⟨(c, kws), htail, rfl⟩
        exact (List.nodup_cons.mp hnd).1 (by simpa [hh] using hc_in)
      have step2 : scanReview (ck :: rest) wf exf m r
          = scanReview rest wf exf
              (scanKeywords (lowerStr r.review_text) ck.1 ck.2 (wf r) (exf r) m) r := rfl
      rw [step2, ih _ (List.nodup_cons.mp hnd).2 htail, countOf_scanKeywords]
      simp [hne]

theorem countOf_scanAll_from (tax : List (Str × List Str)) (wf : Review → ℚ)
    (exf : Review → ReviewExample) (rows : List Review)
    (m : List (Str × CatData)) (c : Str) (kws : List Str)
    (hnd : (tax.map (fun p => p.1)).Nodup) (hmem : (c, kws) ∈ tax) :
    countOf (rows.foldl (scanReview tax wf exf) m) c
      = countOf m c
        + (rows.map (fun r =>
            kws.countP (fun kw => containsSub kw (lowerStr r.review_text)))).sum := by
  induction rows generalizing m with
  | nil => simp
  | cons r rows ih =>
    have step : (r :: rows).foldl (scanReview tax wf exf) m
        = rows.foldl (scanReview tax wf exf) (scanReview tax wf exf m r) := rfl
    rw [step, ih, countOf_scanReview tax wf exf m r c kws hnd hmem]
    simp [Nat.add_assoc]

/-- Claim C2 (amended): the scanner does not stop at the first matching
keyword of a category — each keyword of the category contained in the
lowered review text contributes its own mention, so for every taxonomy
category the recorded mention count is the total number of (review, keyword)
matches; a review containing k keywords of one category contributes k
mentions to it (while still being able to hit several distinct
categories). -/
theorem c2_mention_per_keyword_match (rows : List Review) (c : Str)
    (kws : List Str) :
    ((c, kws) ∈ drivers_keywords →
      countOf (driverScores rows) c
        = (rows.map (fun r =>
            kws.countP (fun kw => containsSub kw (lowerStr r.review_text)))).sum)
    ∧ ((c, kws) ∈ pain_point_keywords →
      countOf (painScores rows) c
        = (rows.map (fun r =>
            kws.countP (fun kw => containsSub kw (lowerStr r.review_text)))).sum) := by
  constructor <;> intro hmem
  · have h := countOf_scanAll_from drivers_keywords driverWeight
      (fun r => exampleOf (driverRating r) r) rows [] c kws (by decide) hmem
    simpa [driverScores, scanAll, countOf_nil] using h
  · have h := countOf_scanAll_from pain_point_keywords painWeight
      (fun r => exampleOf (painRating r) r) rows [] c kws (by decide) hmem
    simpa [painScores, scanAll, countOf_nil] using h

/-- A positive review whose text contains two keywords of the `fast`
category. -/
def reviewFastQuick : Review :=
  { review_text := "fast and quick".toList
    rating := some 5
    sentiment_label := some "positive".toList
    sentiment_score := some 1
    bank_name := "A".toList }

/-- Claim C2, counterexample: a single review whose text contains both
"fast" and "quick" contributes two mentions (and two stored examples) to the
`fast` category, not at most one. -/
theorem c2_counterexample :
    (findCat (driverScores [reviewFastQuick]) ("fast".toList)).map (fun d => d.count)
      = some 2
    ∧ (findCat (driverScores [reviewFastQuick]) ("fast".toList)).map
        (fun d => d.examples.length) = some 2
    ∧ (2:ℕ) ≠ 1 :=
  ⟨by decide, by decide, by decide⟩

/-- Witness for C2 (amended) at the concrete two-keyword review. -/
theorem c2_mention_per_keyword_match_witness :
    (("fast".toList,
      ["fast".toList, "quick".toList, "speed".toList, "instant".toList,
       "rapid".toList, "swift".toList]) ∈ drivers_keywords)
    ∧ countOf (driverScores [reviewFastQuick]) ("fast".toList)
        = ([reviewFastQuick].map (fun r =>
            (["fast".toList, "quick".toList, "speed".toList, "instant".toList,
              "rapid".toList, "swift".toList]).countP
              (fun kw => containsSub kw (lowerStr r.review_text)))).sum :=
  ⟨by decide,
   (c2_mention_per_keyword_match [reviewFastQuick] ("fast".toList)
     ["fast".toList, "quick".toList, "speed".toList, "instant".toList,
      "rapid".toList, "swift".toList]).1 (by decide)⟩

/-- Well-formed rating per the data model: when present it lies in [0, 5]. -/
def wfRat : Option ℚ → Prop
  | none => True
  | some x => 0 ≤ x ∧ x ≤ 5

instance : (o : Option ℚ) → Decidable (wfRat o)
  | none => isTrue trivial
  | some x => inferInstanceAs (Decidable (0 ≤ x ∧ x ≤ 5))

/-- Well-formed sentiment confidence: when present it lies in [0, 1]. -/
def wfConf : Option ℚ → Prop
  | none => True
  | some x => 0 ≤ x ∧ x ≤ 1

instance : (o : Option ℚ) → Decidable (wfConf o)
  | none => isTrue trivial
  | some x => inferInstanceAs (Decidable (0 ≤ x ∧ x ≤ 1))

/-- A well-formed review record (rating in [0,5] when present, sentiment
confidence in [0,1] when present). -/
def wfReview (r : Review) : Prop := wfRat r.rating ∧ wfConf r.sentiment_score

instance (r : Review) : Decidable (wfReview r) :=
  inferInstanceAs (Decidable (wfRat r.rating ∧ wfConf r.sentiment_score))

theorem sentScore_nonneg {r : Review} (h : wfConf r.sentiment_score) :
    0 ≤ sentScore r := by
  unfold sentScore
  cases hs : r.sentiment_score with
  | none => norm_num
  | some x => rw [hs] at h; exact h.1

theorem sentScore_le_one {r : Review} (h : wfConf r.sentiment_score) :
    sentScore r ≤ 1 := by
  unfold sentScore
  cases hs : r.sentiment_score with
  | none => norm_num
  | some x => rw [hs] at h; exact h.2

theorem driverWeight_nonneg {r : Review} (h : wfReview r) :
    0 ≤ driverWeight r := by
  have hrat : 0 ≤ driverRating r := by
    unfold driverRating
    cases hr : r.rating with
    | none => norm_num
    | some x =>
      have := h.1
      rw [hr] at this
      exact this.1
  have hs := sentScore_nonneg h.2
  unfold driverWeight
  have t1 : (0:ℚ) ≤ driverRating r / 5 * (1/2) := by positivity
  have t2 : (0:ℚ) ≤ sentScore r * (1/2) := by positivity
  linarith

theorem painWeight_nonneg {r : Review} (h : wfReview r) :
    0 ≤ painWeight r := by
  have hrat : painRating r ≤ 5 := by
    unfold painRating
    cases hr : r.rating with
    | none => norm_num
    | some x =>
      have := h.1
      rw [hr] at this
      exact this.2
  have hs := sentScore_le_one h.2
  unfold painWeight
  have t1 : (0:ℚ) ≤ (5 - painRating r) / 5 * (1/2) := by
    have : (0:ℚ) ≤ 5 - painRating r := by linarith
    positivity
  have t2 : (0:ℚ) ≤ (1 - sentScore r) * (1/2) := by
    have : (0:ℚ) ≤ 1 - sentScore r := by linarith
    positivity
  linarith

/-- Invariant of a per-category accumulator: nonnegative score, at most 3
examples, each example text at most 100 characters. -/
def catInv (d : CatData) : Prop :=
  0 ≤ d.score ∧ d.examples.length ≤ 3 ∧ ∀ e ∈ d.examples, e.text.length ≤ 100

theorem catInv_bump {d : CatData} {w : ℚ} {ex : ReviewExample}
    (hd : catInv d) (hw : 0 ≤ w) (hex : ex.text.length ≤ 100) :
    catInv (bump d w ex) := by
  obtain ⟨h1, h2, h3⟩ := hd
  refine ⟨add_nonneg h1 hw, ?_, ?_⟩
  · by_cases hlt : d.examples.length < 3 <;> simp [bump, hlt] <;> omega
  · intro e he
    by_cases hlt : d.examples.length < 3
    · simp [bump, hlt] at he
      rcases he with he | he
      · exact h3 e he
      · subst he; exact hex
    · simp [bump, hlt] at he
      exact h3 e he

theorem hit_catInv {m : List (Str × CatData)} {c : Str} {w : ℚ}
    {ex : ReviewExample} (hm : ∀ p ∈ m, catInv p.2) (hw : 0 ≤ w)
    (hex : ex.text.length ≤ 100) :
    ∀ p ∈ hit m c w ex, catInv p.2 := by
  induction m with
  | nil =>
    intro p hp
    simp [hit] at hp
    subst hp
    exact catInv_bump ⟨le_refl 0, by simp, by simp⟩ hw hex
  | cons kd rest ih =>
    obtain ⟨k, d⟩ := kd
    intro p hp
    by_cases hk : k = c
    · simp [hit, hk] at hp
      rcases hp with hp | hp
      · subst hp
        exact catInv_bump (hm (k, d) (by simp)) hw hex
      · exact hm p (List.mem_cons_of_mem _ hp)
    · simp only [hit, hk, if_false] at hp
      rcases List.mem_cons.mp hp with hp | hp
      · subst hp
        exact hm (k, d) (by simp)
      · exact ih (fun q hq => hm q (List.mem_cons_of_mem _ hq)) p hp

theorem scanKeywords_catInv {text c : Str} {kws : List Str} {w : ℚ}
    {ex : ReviewExample} {m : List (Str × CatData)}
    (hm : ∀ p ∈ m, catInv p.2) (hw : 0 ≤ w) (hex : ex.text.length ≤ 100) :
    ∀ p ∈ scanKeywords text c kws w ex m, catInv p.2 := by
  induction kws generalizing m with
  | nil => exact hm
  | cons kw kws ih =>
    have step : scanKeywords text c (kw :: kws) w ex m
        = scanKeywords text c kws w ex
            (if containsSub kw text then hit m c w ex else m) := rfl
    rw [step]
    by_cases hc : containsSub kw text = true
    · simp only [hc, if_true]
      exact ih (hit_catInv hm hw hex)
    · have hc' : containsSub kw text = false := by
        cases hcs : containsSub kw text
        · rfl
        · exact absurd hcs hc
      simp only [hc', if_false]
      exact ih hm

theorem scanReview_catInv {tax : List (Str × List Str)} {wf : Review → ℚ}
    {exf : Review → ReviewExample} {m : List (Str × CatData)} {r : Review}
    (hm : ∀ p ∈ m, catInv p.2) (hw : 0 ≤ wf r)
    (hex : (exf r).text.length ≤ 100) :
    ∀ p ∈ scanReview tax wf exf m r, catInv p.2 := by
  induction tax generalizing m with
  | nil => exact hm
  | cons ck rest ih =>
    have step : scanReview (ck :: rest) wf exf m r
        = scanReview rest wf exf
            (scanKeywords (lowerStr r.review_text) ck.1 ck.2 (wf r) (exf r) m) r := rfl
    rw [step]
    exact ih (scanKeywords_catInv hm hw hex)

theorem scanFold_catInv {tax : List (Str × List Str)} {wf : Review → ℚ}
    {exf : Review → ReviewExample} {rows : List Review}
    {m : List (Str × CatData)}
    (hm : ∀ p ∈ m, catInv p.2)
    (hrows : ∀ r ∈ rows, 0 ≤ wf r ∧ (exf r).text.length ≤ 100) :
    ∀ p ∈ rows.foldl (scanReview tax wf exf) m, catInv p.2 := by
  induction rows generalizing m with
  | nil => exact hm
  | cons r rows ih =>
    have step : (r :: rows).foldl (scanReview tax wf exf) m
        = rows.foldl (scanReview tax wf exf) (scanReview tax wf exf m r) := rfl
    rw [step]
    have hr := hrows r (by simp)
    exact ih (scanReview_catInv hm hr.1 hr.2)
      (fun q hq => hrows q (List.mem_cons_of_mem _ hq))

theorem exampleOf_text_length (v : ℚ) (r : Review) :
    (exampleOf v r).text.length ≤ 100 := by
  simp [exampleOf]

theorem driverScores_catInv {df : List Review}
    (h : ∀ r ∈ df, wfReview r) :
    ∀ p ∈ driverScores df, catInv p.2 := by
  unfold driverScores scanAll
  refine scanFold_catInv (by simp) ?_
  intro r hr
  exact ⟨driverWeight_nonneg (h r hr), exampleOf_text_length _ _⟩

theorem painScores_catInv {df : List Review}
    (h : ∀ r ∈ df, wfReview r) :
    ∀ p ∈ painScores df, catInv p.2 := by
  unfold painScores scanAll
  refine scanFold_catInv (by simp) ?_
  intro r hr
  exact ⟨painWeight_nonneg (h r hr), exampleOf_text_length _ _⟩

theorem mem_driverCandidates {positive : List Review} {d : Driver}
    (hd : d ∈ driverCandidates positive) :
    ∃ cd ∈ driverScores positive, 5 ≤ cd.2.count
      ∧ d.strength = min (cd.2.score / (cd.2.count : ℚ)) 1
      ∧ d.mentions = cd.2.count
      ∧ d.examples = cd.2.examples := by
  rcases List.mem_filterMap.mp hd with ⟨cd, hcd, heq⟩
  by_cases hc : 5 ≤ cd.2.count
  · simp only [hc, if_true, Option.some.injEq] at heq
    subst heq
    exact ⟨cd, hcd, hc, rfl, rfl, rfl⟩
  · simp [hc] at heq

theorem mem_painCandidates {negative : List Review} {p : PainPoint}
    (hp : p ∈ painCandidates negative) :
    ∃ cd ∈ painScores negative, 5 ≤ cd.2.count
      ∧ p.severity = min (cd.2.score / (cd.2.count : ℚ)) 1
      ∧ p.mentions = cd.2.count
      ∧ p.examples = cd.2.examples := by
  rcases List.mem_filterMap.mp hp with ⟨cd, hcd, heq⟩
  by_cases hc : 5 ≤ cd.2.count
  · simp only [hc, if_true, Option.some.injEq] at heq
    subst heq
    exact ⟨cd, hcd, hc, rfl, rfl, rfl⟩
  · simp [hc] at heq

theorem score_bounds_of_catInv {cd : CatData} (hinv : catInv cd)
    (hc : 5 ≤ cd.count) :
    0 ≤ min (cd.score / (cd.count : ℚ)) 1 ∧ min (cd.score / (cd.count : ℚ)) 1 ≤ 1 := by
  constructor
  · refine le_min ?_ (by norm_num)
    have h0 : (0:ℚ) ≤ (cd.count : ℚ) := by positivity
    exact div_nonneg hinv.1 h0
  · exact min_le_right _ _

/-- Claim C7: every emitted driver/pain-point entry has its aggregate score in
[0, 1], a mention count of at least the configured minimum threshold 5
(below-threshold categories are filtered out entirely), at most 3 stored
examples, and each example text truncated to at most 100 characters.  The
hypothesis is the data-model invariant: each rating lies in [0, 5] when
present, each sentiment confidence in [0, 1] when present. -/
theorem c7_insight_invariants (df : List Review) (h : ∀ r ∈ df, wfReview r) :
    (∀ d ∈ identify_drivers df,
      0 ≤ d.strength ∧ d.strength ≤ 1 ∧ 5 ≤ d.mentions
      ∧ d.examples.length ≤ 3 ∧ ∀ e ∈ d.examples, e.text.length ≤ 100)
    ∧ (∀ p ∈ identify_pain_points df,
      0 ≤ p.severity ∧ p.severity ≤ 1 ∧ 5 ≤ p.mentions
      ∧ p.examples.length ≤ 3 ∧ ∀ e ∈ p.examples, e.text.length ≤ 100) := by
  have hpos : ∀ r ∈ positiveSubset df, wfReview r := by
    intro r hr
    exact h r (List.mem_of_mem_filter hr)
  have hneg : ∀ r ∈ negativeSubset df, wfReview r := by
    intro r hr
    exact h r (List.mem_of_mem_filter hr)
  constructor
  · intro d hd
    have hcand : d ∈ driverCandidates (positiveSubset df) := by
      unfold identify_drivers at hd
      by_cases hz : (positiveSubset df).length = 0
      · simp [hz] at hd
      · simp only [hz, if_false] at hd
        have h1 : d ∈ sortDesc (fun d => d.strength)
            (driverCandidates (positiveSubset df)) :=
          (List.take_sublist _ _).subset hd
        simpa [sortDesc] using h1
    rcases mem_driverCandidates hcand with ⟨cd, hcd, hcnt, hstr, hm, hex⟩
    have hinv := driverScores_catInv hpos cd hcd
    have hb := score_bounds_of_catInv hinv hcnt
    refine ⟨hstr ▸ hb.1, hstr ▸ hb.2, hm ▸ hcnt, ?_, ?_⟩
    · rw [hex]; exact hinv.2.1
    · intro e he
      rw [hex] at he
      exact hinv.2.2 e he
  · intro p hp
    have hcand : p ∈ painCandidates (negativeSubset df) := by
      unfold identify_pain_points at hp
      by_cases hz : (negativeSubset df).length = 0
      · simp [hz] at hp
      · simp only [hz, if_false] at hp
        have h1 : p ∈ sortDesc (fun p => p.severity)
            (painCandidates (negativeSubset df)) :=
          (List.take_sublist _ _).subset hp
        simpa [sortDesc] using h1
    rcases mem_painCandidates hcand with ⟨cd, hcd, hcnt, hstr, hm, hex⟩
    have hinv := painScores_catInv hneg cd hcd
    have hb := score_bounds_of_catInv hinv hcnt
    refine ⟨hstr ▸ hb.1, hstr ▸ hb.2, hm ▸ hcnt, ?_, ?_⟩
    · rw [hex]; exact hinv.2.1
    · intro e he
      rw [hex] at he
      exact hinv.2.2 e he

/-- Five identical positive reviews mentioning "fast", enough to clear the
minimum-mention threshold. -/
def dfFast : List Review :=
  List.replicate 5
    { review_text := "fast app".toList
      rating := some 5
      sentiment_label := some "positive".toList
      sentiment_score := some 1
      bank_name := "A".toList }

/-- Witness for C7 at a concrete frame that produces a nonempty driver
list. -/
theorem c7_insight_invariants_witness :
    (∀ r ∈ dfFast, wfReview r)
    ∧ ((∀ d ∈ identify_drivers dfFast,
          0 ≤ d.strength ∧ d.strength ≤ 1 ∧ 5 ≤ d.mentions
          ∧ d.examples.length ≤ 3 ∧ ∀ e ∈ d.examples, e.text.length ≤ 100)
      ∧ (∀ p ∈ identify_pain_points dfFast,
          0 ≤ p.severity ∧ p.severity ≤ 1 ∧ 5 ≤ p.mentions
          ∧ p.examples.length ≤ 3 ∧ ∀ e ∈ p.examples, e.text.length ≤ 100)) :=
  ⟨by decide, c7_insight_invariants dfFast (by decide)⟩

theorem sorted_sortDesc {α : Type} (key : α → ℚ) (l : List α) :
    List.Sorted (descBy key) (sortDesc key l) :=
  List.sorted_insertionSort _ l

theorem filter_orderedInsert_not {α : Type} (key : α → ℚ) (c : ℚ) (x : α)
    (l : List α) (hx : ¬ key x = c) :
    (List.orderedInsert (descBy key) x l).filter (fun a => decide (key a = c))
      = l.filter (fun a => decide (key a = c)) := by
  induction l with
  | nil => simp [List.orderedInsert, hx]
  | cons b t ih =>
    by_cases hle : descBy key x b
    · simp [List.orderedInsert, hle, hx]
    · simp only [List.orderedInsert, if_neg hle]
      by_cases hb : key b = c <;> simp [hb, ih]

theorem filter_orderedInsert_eq {α : Type} (key : α → ℚ) (c : ℚ) (x : α)
    (l : List α) (hl : List.Sorted (descBy key) l) (hx : key x = c) :
    (List.orderedInsert (descBy key) x l).filter (fun a => decide (key a = c))
      = x :: l.filter (fun a => decide (key a = c)) := by
  induction l with
  | nil => simp [List.orderedInsert, hx]
  | cons b t ih =>
    by_cases hle : descBy key x b
    · simp [List.orderedInsert, hle, hx]
    · have hlt : key x < key b := by
        unfold descBy at hle
        exact lt_of_not_le hle
      have hb : ¬ key b = c := by
        intro hh
        rw [hx] at hlt
        rw [hh] at hlt
        exact lt_irrefl c hlt
      have hsorted : List.Sorted (descBy key) t := hl.of_cons
      simp only [List.orderedInsert, if_neg hle]
      rw [List.filter_cons, List.filter_cons]
      simp [hb, ih hsorted]

theorem filter_sortDesc {α : Type} (key : α → ℚ) (c : ℚ) (l : List α) :
    (sortDesc key l).filter (fun a => decide (key a = c))
      = l.filter (fun a => decide (key a = c)) := by
  induction l with
  | nil => rfl
  | cons x l ih =>
    have step : sortDesc key (x :: l)
        = List.orderedInsert (descBy key) x (sortDesc key l) := rfl
    rw [step]
    by_cases hx : key x = c
    · rw [filter_orderedInsert_eq key c x _ (sorted_sortDesc key l) hx, ih,
        List.filter_cons]
      simp [hx]
    · rw [filter_orderedInsert_not key c x _ hx, ih, List.filter_cons]
      simp [hx]

/-- Claim C8: the returned driver list is sorted descending by `strength` and
the pain-point list descending by `severity`; the sort is stable — for every
score value, the entries carrying that value appear in the same relative
(insertion/taxonomy) order as in the unsorted candidate list. -/
theorem c8_sorted_stable (df : List Review) (c : ℚ) :
    List.Sorted (descBy (fun d : Driver => d.strength)) (identify_drivers df)
    ∧ (sortDesc (fun d : Driver => d.strength)
        (driverCandidates (positiveSubset df))).filter
          (fun d => decide (d.strength = c))
      = (driverCandidates (positiveSubset df)).filter
          (fun d => decide (d.strength = c))
    ∧ List.Sorted (descBy (fun p : PainPoint => p.severity))
        (identify_pain_points df)
    ∧ (sortDesc (fun p : PainPoint => p.severity)
        (painCandidates (negativeSubset df))).filter
          (fun p => decide (p.severity = c))
      = (painCandidates (negativeSubset df)).filter
          (fun p => decide (p.severity = c)) := by
  refine ⟨?_, filter_sortDesc _ _ _, ?_, filter_sortDesc _ _ _⟩
  · unfold identify_drivers
    by_cases hz : (positiveSubset df).length = 0
    · simp [hz]
    · simp only [hz, if_false]
      exact List.Pairwise.sublist (List.take_sublist _ _)
        (sorted_sortDesc (fun d : Driver => d.strength) _)
  · unfold identify_pain_points
    by_cases hz : (negativeSubset df).length = 0
    · simp [hz]
    · simp only [hz, if_false]
      exact List.Pairwise.sublist (List.take_sublist _ _)
        (sorted_sortDesc (fun p : PainPoint => p.severity) _)

theorem mem_foldl_uniqueFirst {α : Type} [DecidableEq α] (l : List α)
    (acc : List α) (x : α) :
    (x ∈ l.foldl (fun acc y => if y ∈ acc then acc else acc ++ [y]) acc)
      ↔ x ∈ acc ∨ x ∈ l := by
  induction l generalizing acc with
  | nil => simp
  | cons y l ih =>
    have step : (y :: l).foldl (fun acc y => if y ∈ acc then acc else acc ++ [y]) acc
        = l.foldl (fun acc y => if y ∈ acc then acc else acc ++ [y])
            (if y ∈ acc then acc else acc ++ [y]) := rfl
    rw [step, ih]
    by_cases hy : y ∈ acc
    · simp only [hy, if_true, List.mem_cons]
      constructor
      · rintro (hx | hx)
        · exact Or.inl hx
        · exact Or.inr (Or.inr hx)
      · rintro (hx | hx | hx)
        · exact Or.inl hx
        · exact Or.inl (hx ▸ hy)
        · exact Or.inr hx
    · simp only [hy, if_false, List.mem_append, List.mem_singleton,
        List.mem_cons]
      tauto

theorem mem_uniqueFirst {α : Type} [DecidableEq α] (l : List α) (x : α) :
    x ∈ uniqueFirst l ↔ x ∈ l := by
  unfold uniqueFirst
  rw [mem_foldl_uniqueFirst]
  simp

theorem dictInsertZ_key_mem (m : List (ℤ × ℕ)) (k k' : ℤ) (v : ℕ) :
    (∃ n, (k, n) ∈ dictInsertZ m k' v) ↔ (∃ n, (k, n) ∈ m) ∨ k = k' := by
  induction m with
  | nil =>
    simp only [dictInsertZ, List.mem_singleton, List.not_mem_nil, exists_const,
      false_or, Prod.ext_iff]
    constructor
    · rintro ⟨n, hk, _⟩
      exact hk
    · rintro rfl
      exact ⟨v, rfl, rfl⟩
  | cons p rest ih =>
    obtain ⟨pk, pv⟩ := p
    by_cases hp : pk = k'
    · subst hp
      simp only [dictInsertZ, if_pos rfl]
      constructor
      · rintro ⟨n, hn⟩
        rcases List.mem_cons.mp hn with heq | hmem
        · exact Or.inr (congrArg Prod.fst heq)
        · exact Or.inl ⟨n, List.mem_cons_of_mem _ hmem⟩
      · rintro (⟨n, hn⟩ | hk)
        · rcases List.mem_cons.mp hn with heq | hmem
          · have : k = pk := congrArg Prod.fst heq
            exact ⟨v, by simp [this]⟩
          · exact ⟨n, List.mem_cons_of_mem _ hmem⟩
        · exact ⟨v, by simp [hk]⟩
    · simp only [dictInsertZ, if_neg hp]
      constructor
      · rintro ⟨n, hn⟩
        rcases List.mem_cons.mp hn with heq | hmem
        · exact Or.inl ⟨n, List.mem_cons.mpr (Or.inl heq)⟩
        · rcases ih.mp ⟨n, hmem⟩ with ⟨n', hn'⟩ | hkk
          · exact Or.inl ⟨n', List.mem_cons_of_mem _ hn'⟩
          · exact Or.inr hkk
      · rintro (⟨n, hn⟩ | hk)
        · rcases List.mem_cons.mp hn with heq | hmem
          · exact ⟨n, List.mem_cons.mpr (Or.inl heq)⟩
          · rcases ih.mpr (Or.inl ⟨n, hmem⟩) with ⟨n', hn'⟩
            exact ⟨n', List.mem_cons_of_mem _ hn'⟩
        · rcases ih.mpr (Or.inr hk) with ⟨n', hn'⟩
          exact ⟨n', List.mem_cons_of_mem _ hn'⟩

theorem dictifyZ_key_mem_from (l : List (ℤ × ℕ)) (m : List (ℤ × ℕ)) (k : ℤ) :
    (∃ n, (k, n) ∈ l.foldl (fun m p => dictInsertZ m p.1 p.2) m)
      ↔ (∃ n, (k, n) ∈ m) ∨ ∃ p ∈ l, p.1 = k := by
  induction l generalizing m with
  | nil => simp
  | cons p l ih =>
    have step : (p :: l).foldl (fun m p => dictInsertZ m p.1 p.2) m
        = l.foldl (fun m p => dictInsertZ m p.1 p.2) (dictInsertZ m p.1 p.2) := rfl
    rw [step, ih, dictInsertZ_key_mem]
    constructor
    · rintro ((h | h) | h)
      · exact Or.inl h
      · exact Or.inr ⟨p, by simp, h.symm⟩
      · rcases h with ⟨q, hq, hqk⟩
        exact Or.inr ⟨q, List.mem_cons_of_mem _ hq, hqk⟩
    · rintro (h | ⟨q, hq, hqk⟩)
      · exact Or.inl (Or.inl h)
      · rcases List.mem_cons.mp hq with rfl | hq'
        · exact Or.inl (Or.inr hqk.symm)
        · exact Or.inr ⟨q, hq', hqk⟩

theorem dictifyZ_key_mem (l : List (ℤ × ℕ)) (k : ℤ) :
    (∃ n, (k, n) ∈ dictifyZ l) ↔ ∃ p ∈ l, p.1 = k := by
  unfold dictifyZ
  rw [dictifyZ_key_mem_from]
  simp

theorem bankRow_histogram_keys (g : List Review) (k : ℤ) :
    (∃ n, (k, n) ∈ (bankRowFor g).rating_distribution)
      ↔ ∃ r ∈ g, ratInt (r.rating.getD 0) = k := by
  have hdist : (bankRowFor g).rating_distribution
      = dictifyZ ((valueCounts (g.map (fun r => r.rating.getD 0))).map
          (fun p => (ratInt p.1, p.2))) := rfl
  rw [hdist, dictifyZ_key_mem]
  constructor
  · rintro ⟨p, hp, hk⟩
    rcases List.mem_map.mp hp with ⟨q, hq, rfl⟩
    rcases List.mem_map.mp hq with ⟨v, hv, rfl⟩
    rcases List.mem_map.mp ((mem_uniqueFirst _ _).mp hv) with ⟨r, hr, rfl⟩
    exact ⟨r, hr, hk⟩
  · rintro ⟨r, hr, hk⟩
    refine ⟨(ratInt (r.rating.getD 0),
      (g.map (fun x => x.rating.getD 0)).count (r.rating.getD 0)), ?_, hk⟩
    refine List.mem_map.mpr ⟨(r.rating.getD 0,
      (g.map (fun x => x.rating.getD 0)).count (r.rating.getD 0)), ?_, rfl⟩
    refine List.mem_map.mpr ⟨r.rating.getD 0, ?_, rfl⟩
    exact (mem_uniqueFirst _ _).mpr (List.mem_map.mpr ⟨r, hr, rfl⟩)

/-- Claim C5 (amended): each comparison row holds the group's review count;
the mean rating is taken over the coerced rating column in which an absent
rating is replaced by 0.0 (so absent ratings are included in the mean as
zeros, not excluded); each sentiment percentage is count/total × 100 (0 when
the group is empty); and the rating histogram has one bucket per rating value
actually observed in the coerced column — buckets for unobserved ratings are
absent, not zero-filled (and a 0 bucket can appear for absent ratings). -/
theorem c5_comparator_semantics (df g : List Review) (b : Str)
    (hb : b ∈ uniqueFirst (df.map (fun r => r.bank_name)))
    (hg : g = df.filter (fun r => decide (r.bank_name = b))) :
    (b, bankRowFor g) ∈ compare_banks df
    ∧ (bankRowFor g).total_reviews = g.length
    ∧ (bankRowFor g).average_rating
        = (g.map (fun r => r.rating.getD 0)).sum / (g.length : ℚ)
    ∧ (bankRowFor g).positive_sentiment_pct
        = (if 0 < g.length then
            ((g.countP (fun r =>
              decide (r.sentiment_label = some ("positive".toList)))) : ℚ)
              / (g.length : ℚ) * 100
           else 0)
    ∧ (bankRowFor g).negative_sentiment_pct
        = (if 0 < g.length then
            ((g.countP (fun r =>
              decide (r.sentiment_label = some ("negative".toList)))) : ℚ)
              / (g.length : ℚ) * 100
           else 0)
    ∧ (bankRowFor g).neutral_sentiment_pct
        = (if 0 < g.length then
            ((g.countP (fun r =>
              decide (r.sentiment_label = some ("neutral".toList)))) : ℚ)
              / (g.length : ℚ) * 100
           else 0)
    ∧ ∀ k : ℤ, (∃ n, (k, n) ∈ (bankRowFor g).rating_distribution)
        ↔ ∃ r ∈ g, ratInt (r.rating.getD 0) = k := by
  refine ⟨?_, rfl, ?_, rfl, rfl, rfl, fun k => bankRow_histogram_keys g k⟩
  · exact List.mem_map.mpr ⟨b, hb, by rw [hg]⟩
  · have havg : (bankRowFor g).average_rating
        = (g.map (fun r => r.rating.getD 0)).sum
          / (((g.map (fun r => r.rating.getD 0)).length : ℕ) : ℚ) := rfl
    rw [havg, List.length_map]

/-- A two-review frame for one bank: one rating 5, one absent rating. -/
def dfBankA : List Review :=
  [ { review_text := "good".toList
      rating := some 5
      sentiment_label := some "positive".toList
      sentiment_score := some 1
      bank_name := "A".toList },
    { review_text := "bad".toList
      rating := none
      sentiment_label := some "negative".toList
      sentiment_score := some 1
      bank_name := "A".toList } ]

/-- Claim C5, counterexample: with ratings {5, absent} the produced average
is 5/2 — the absent rating was coerced to 0 and included in the mean
(exclusion would give 5) — and the histogram has no bucket for rating 1
(the claim demands a zero-count bucket for every rating 1–5). -/
theorem c5_counterexample :
    ((compare_banks dfBankA).head?).map (fun p => p.2.average_rating)
      = some (5/2)
    ∧ (5:ℚ)/2 ≠ 5
    ∧ ((compare_banks dfBankA).head?).map
        (fun p => p.2.rating_distribution.lookup (1:ℤ)) = some none :=
  ⟨by norm_num [compare_banks, dfBankA, bankRowFor, uniqueFirst, List.filter],
   by norm_num, by decide⟩

/-- Witness for C5 (amended) at the concrete two-review frame. -/
theorem c5_comparator_semantics_witness :
    ("A".toList ∈ uniqueFirst (dfBankA.map (fun r => r.bank_name)))
    ∧ (dfBankA = dfBankA.filter (fun r => decide (r.bank_name = "A".toList)))
    ∧ ("A".toList, bankRowFor dfBankA) ∈ compare_banks dfBankA :=
  ⟨by decide, by decide,
   (c5_comparator_semantics dfBankA dfBankA ("A".toList) (by decide) (by decide)).1⟩

/-- Witness for C4 at the concrete no-rating review. -/
theorem c4_weight_formulas_witness :
    driverWeight reviewNoRating
      = (reviewNoRating.rating.getD 0) / 5 * (1/2)
        + (reviewNoRating.sentiment_score.getD (1/2)) * (1/2)
    ∧ painWeight reviewNoRating
      = (5 - reviewNoRating.rating.getD 3) / 5 * (1/2)
        + (1 - reviewNoRating.sentiment_score.getD (1/2)) * (1/2) :=
  c4_weight_formulas reviewNoRating

/-- Witness for C6 (amended) at a concrete empty input. -/
theorem c6_deterministic_modulo_set_order_witness :
    (generate_recommendations [] [] canonicalOrder).take
        ((([] : List PainPoint).take 3).filterMap get_recommendation_for_pain_point).length
      = (([] : List PainPoint).take 3).filterMap get_recommendation_for_pain_point
    ∧ ∀ r ∈ (generate_recommendations [] [] canonicalOrder).drop
        ((([] : List PainPoint).take 3).filterMap get_recommendation_for_pain_point).length,
        r.opportunity = true :=
  c6_deterministic_modulo_set_order [] [] canonicalOrder

/-- Witness for C8 at a concrete frame. -/
theorem c8_sorted_stable_witness :
    List.Sorted (descBy (fun d : Driver => d.strength)) (identify_drivers [])
    ∧ (sortDesc (fun d : Driver => d.strength)
        (driverCandidates (positiveSubset []))).filter
          (fun d => decide (d.strength = 1))
      = (driverCandidates (positiveSubset [])).filter
          (fun d => decide (d.strength = 1))
    ∧ List.Sorted (descBy (fun p : PainPoint => p.severity))
        (identify_pain_points [])
    ∧ (sortDesc (fun p : PainPoint => p.severity)
        (painCandidates (negativeSubset []))).filter
          (fun p => decide (p.severity = 1))
      = (painCandidates (negativeSubset [])).filter
          (fun p => decide (p.severity = 1)) :=
  c8_sorted_stable [] 1

/-- Witness for C10 at a concrete (empty) frame. -/
theorem c10_frame_witness :
    identify_drivers_run [] = (identify_drivers [], [])
    ∧ identify_pain_points_run [] = (identify_pain_points [], [])
    ∧ compare_banks_run [] = (compare_banks [], []) :=
  c10_frame []
